import Mathlib

/-!
Verification of the diagnostic-to-advice pipeline of the planning
orchestrator (`docker/orchestrator.py`).

Python strings handled by the response normalizer are modelled as
`List Char`; `json.loads` is modelled by an executable recursive-descent
parser `parseJson` over the JSON fragment actually exercised by the
program (objects, arrays, strings with the common escapes, integer
numerals, booleans, null, with surrounding whitespace) and dicts are
modelled as ordered association lists, mirroring the insertion order
of Python dicts.  Literal brace characters are written via
`Char.ofNat` throughout.
-/

namespace NunoOrch

/-- The character `{`. -/
def lbrace : Char := Char.ofNat 123

/-- The character `}`. -/
def rbrace : Char := Char.ofNat 125

/-- JSON whitespace characters (the ones `json.loads` skips). -/
def isWsChar (c : Char) : Bool :=
  c = ' ' || c = '\t' || c = '\n' || c = '\r'

/-- Drop leading JSON whitespace. -/
def skipWs : List Char → List Char
  | [] => []
  | c :: rest => if isWsChar c then skipWs rest else c :: rest

/-- Decimal digit value of a character, if it is a digit. -/
def charDigit? (c : Char) : Option Nat :=
  if c = '0' then some 0
  else if c = '1' then some 1
  else if c = '2' then some 2
  else if c = '3' then some 3
  else if c = '4' then some 4
  else if c = '5' then some 5
  else if c = '6' then some 6
  else if c = '7' then some 7
  else if c = '8' then some 8
  else if c = '9' then some 9
  else none

/-- The decimal digit character for a value `0 ≤ n ≤ 9`. -/
def digitChar (n : Nat) : Char :=
  if n = 0 then '0'
  else if n = 1 then '1'
  else if n = 2 then '2'
  else if n = 3 then '3'
  else if n = 4 then '4'
  else if n = 5 then '5'
  else if n = 6 then '6'
  else if n = 7 then '7'
  else if n = 8 then '8'
  else '9'

/-- Decimal digit string of a natural number (no leading zeros). -/
def natToChars (n : Nat) : List Char :=
  if _h : n < 10 then [digitChar n]
  else natToChars (n / 10) ++ [digitChar (n % 10)]
  decreasing_by exact Nat.div_lt_self (by omega) (by omega)

/-- Decimal rendering of an integer. -/
def intToChars (n : Int) : List Char :=
  if n < 0 then '-' :: natToChars n.natAbs else natToChars n.toNat

/-- Consume a maximal run of decimal digits, accumulating their value. -/
def parseDigitsAux : List Char → Nat → Nat × List Char
  | [], acc => (acc, [])
  | c :: rest, acc =>
    match charDigit? c with
    | some d => parseDigitsAux rest (10 * acc + d)
    | none => (acc, c :: rest)

/-- JSON escape sequence emitted for a character inside a string literal. -/
def escChars (c : Char) : List Char :=
  if c = '"' then ['\\', '"']
  else if c = '\\' then ['\\', '\\']
  else if c = '\n' then ['\\', 'n']
  else if c = '\t' then ['\\', 't']
  else if c = '\r' then ['\\', 'r']
  else if c = Char.ofNat 8 then ['\\', 'b']
  else if c = Char.ofNat 12 then ['\\', 'f']
  else [c]

/-- Escape the body of a JSON string literal. -/
def escapeStr : List Char → List Char
  | [] => []
  | c :: s => escChars c ++ escapeStr s

/-- Character denoted by a JSON string escape `\e`. -/
def escChar? (e : Char) : Option Char :=
  if e = '"' then some '"'
  else if e = '\\' then some '\\'
  else if e = '/' then some '/'
  else if e = 'n' then some '\n'
  else if e = 't' then some '\t'
  else if e = 'r' then some '\r'
  else if e = 'b' then some (Char.ofNat 8)
  else if e = 'f' then some (Char.ofNat 12)
  else none

/-- Parse the body of a JSON string literal after the opening quote,
returning the string and the input after the closing quote. -/
def parseStrBody : List Char → Option (List Char × List Char)
  | [] => none
  | c :: rest =>
    if c = '"' then some ([], rest)
    else if c = '\\' then
      match rest with
      | [] => none
      | e :: rest2 =>
        match escChar? e, parseStrBody rest2 with
        | some ec, some (s, r) => some (ec :: s, r)
        | _, _ => none
    else
      match parseStrBody rest with
      | some (s, r) => some (c :: s, r)
      | none => none

/-- A JSON value.  Numbers are restricted to the integer numerals the
program actually exchanges; objects are insertion-ordered key/value
lists, like Python dicts. -/
inductive Json where
  | null
  | bool (b : Bool)
  | num (n : Int)
  | str (s : List Char)
  | arr (xs : List Json)
  | obj (kvs : List (List Char × Json))

/-- Rendering of a JSON string literal, quotes included. -/
def renderString (s : List Char) : List Char :=
  '"' :: escapeStr s ++ ['"']

mutual

/-- Compact serialization of a JSON value (as `json.dumps` with no
spacing would produce). -/
def Json.render : Json → List Char
  | .null => "null".data
  | .bool true => "true".data
  | .bool false => "false".data
  | .num n => intToChars n
  | .str s => renderString s
  | .arr xs => '[' :: renderItems xs ++ [']']
  | .obj kvs => lbrace :: renderMembers kvs ++ [rbrace]

/-- Comma-separated rendering of array elements. -/
def renderItems : List Json → List Char
  | [] => []
  | [x] => Json.render x
  | x :: y :: xs => Json.render x ++ ',' :: renderItems (y :: xs)

/-- Comma-separated rendering of object members. -/
def renderMembers : List (List Char × Json) → List Char
  | [] => []
  | [kv] => renderString kv.1 ++ ':' :: Json.render kv.2
  | kv :: kv2 :: kvs =>
    renderString kv.1 ++ ':' :: Json.render kv.2 ++ ',' :: renderMembers (kv2 :: kvs)

end

mutual

/-- Fueled recursive-descent parser for one JSON value; returns the value
and the unconsumed remainder (trailing whitespace not skipped). -/
def parseVF : Nat → List Char → Option (Json × List Char)
  | 0, _ => none
  | Nat.succ fuel, input =>
    match skipWs input with
    | [] => none
    | c :: rest =>
      if c = '"' then
        match parseStrBody rest with
        | some (s, r) => some (Json.str s, r)
        | none => none
      else if c = lbrace then
        match parseMembersF fuel rest with
        | some (kvs, r) => some (Json.obj kvs, r)
        | none => none
      else if c = '[' then
        match parseItemsF fuel rest with
        | some (xs, r) => some (Json.arr xs, r)
        | none => none
      else if c = 't' then
        match rest with
        | 'r' :: 'u' :: 'e' :: r => some (Json.bool true, r)
        | _ => none
      else if c = 'f' then
        match rest with
        | 'a' :: 'l' :: 's' :: 'e' :: r => some (Json.bool false, r)
        | _ => none
      else if c = 'n' then
        match rest with
        | 'u' :: 'l' :: 'l' :: r => some (Json.null, r)
        | _ => none
      else if c = '-' then
        match rest with
        | d :: _ =>
          match charDigit? d with
          | some _ =>
            let p := parseDigitsAux rest 0
            some (Json.num (-(p.1 : Int)), p.2)
          | none => none
        | [] => none
      else
        match charDigit? c with
        | some _ =>
          let p := parseDigitsAux (c :: rest) 0
          some (Json.num (p.1 : Int), p.2)
        | none => none

/-- Fueled parser for the inside of a JSON array (after `[`): either an
immediate `]` or a non-empty comma-separated element list. -/
def parseItemsF : Nat → List Char → Option (List Json × List Char)
  | 0, _ => none
  | Nat.succ fuel, input =>
    match skipWs input with
    | [] => none
    | c :: rest =>
      if c = ']' then some ([], rest)
      else parseItems1F fuel (c :: rest)

/-- Fueled parser for a non-empty comma-separated element list followed
by `]` (trailing commas rejected, as by `json.loads`). -/
def parseItems1F : Nat → List Char → Option (List Json × List Char)
  | 0, _ => none
  | Nat.succ fuel, input =>
    match parseVF fuel input with
    | some (j, r1) =>
      match skipWs r1 with
      | ',' :: r2 =>
        match parseItems1F fuel r2 with
        | some (xs, r3) => some (j :: xs, r3)
        | none => none
      | ']' :: r2 => some ([j], r2)
      | _ => none
    | none => none

/-- Fueled parser for the inside of a JSON object (after the opening
brace): either an immediate closing brace or a non-empty member list. -/
def parseMembersF : Nat → List Char → Option (List (List Char × Json) × List Char)
  | 0, _ => none
  | Nat.succ fuel, input =>
    match skipWs input with
    | [] => none
    | c :: rest =>
      if c = rbrace then some ([], rest)
      else parseMembers1F fuel (c :: rest)

/-- Fueled parser for a non-empty comma-separated member list followed by
a closing brace (trailing commas rejected, as by `json.loads`). -/
def parseMembers1F : Nat → List Char → Option (List (List Char × Json) × List Char)
  | 0, _ => none
  | Nat.succ fuel, input =>
    match skipWs input with
    | [] => none
    | c :: rest =>
      if c = '"' then
        match parseStrBody rest with
        | some (k, r1) =>
          match skipWs r1 with
          | ':' :: r2 =>
            match parseVF fuel r2 with
            | some (v, r3) =>
              match skipWs r3 with
              | ',' :: r4 =>
                match parseMembers1F fuel r4 with
                | some (kvs, r5) => some ((k, v) :: kvs, r5)
                | none => none
              | c2 :: r4 => if c2 = rbrace then some ([(k, v)], r4) else none
              | [] => none
            | none => none
          | _ => none
        | none => none
      else none

end

/-- Model of `json.loads`: parse a complete JSON document, allowing
surrounding whitespace only.  The fuel `3 * length + 3` dominates the
parser's call depth on any input of this length. -/
def parseJson (s : List Char) : Option Json :=
  match parseVF (3 * s.length + 3) s with
  | some (j, rest) => if (skipWs rest).isEmpty then some j else none
  | none => none

/-- Number tokens are maximal digit runs, so re-parsing a rendered number
is only faithful when the following text does not begin with a digit. -/
def numGuard (j : Json) (rest : List Char) : Bool :=
  match j with
  | .num _ =>
    match rest with
    | [] => true
    | c :: _ => !(charDigit? c).isSome
  | _ => true

/-! ### Basic lemmas about digits and character classes -/

theorem charDigit?_digitChar {n : Nat} (h : n < 10) :
    charDigit? (digitChar n) = some n := by
  interval_cases n <;> decide

set_option maxHeartbeats 1000000 in
theorem charDigit?_facts {c : Char} {d : Nat} (h : charDigit? c = some d) :
    isWsChar c = false ∧ c ≠ '"' ∧ c ≠ lbrace ∧ c ≠ '[' ∧ c ≠ ']' ∧
    c ≠ rbrace ∧ c ≠ 't' ∧ c ≠ 'f' ∧ c ≠ 'n' ∧ c ≠ '-' ∧ c ≠ ',' ∧
    c ≠ ':' ∧ c ≠ '\\' ∧ d < 10 := by
  unfold charDigit? at h
  split_ifs at h with h0 h1 h2 h3 h4 h5 h6 h7 h8 h9 <;>
    (injection h with hd; subst hd; subst_vars; decide)

/-- Head-of-list digit test. -/
def headDigit : List Char → Bool
  | [] => false
  | c :: _ => (charDigit? c).isSome

theorem parseDigitsAux_stop {rest : List Char} {acc : Nat}
    (h : headDigit rest = false) : parseDigitsAux rest acc = (acc, rest) := by
  cases rest with
  | nil => rfl
  | cons c t =>
    cases hc : charDigit? c with
    | some d => simp [headDigit, hc] at h
    | none => simp [parseDigitsAux, hc]

theorem parseDigitsAux_natToChars (n : Nat) :
    ∀ acc rest, parseDigitsAux (natToChars n ++ rest) acc =
      parseDigitsAux rest (acc * 10 ^ (natToChars n).length + n) := by
  induction n using Nat.strong_induction_on with
  | _ n ih =>
    intro acc rest
    rw [natToChars]
    split_ifs with h
    · simp only [List.cons_append, List.nil_append, parseDigitsAux,
        charDigit?_digitChar h, List.length_cons, List.length_nil,
        zero_add, pow_one]
      congr 1
      omega
    · rw [List.append_assoc]
      rw [ih (n / 10) (by omega)]
      have h10 : n % 10 < 10 := Nat.mod_lt _ (by omega)
      simp only [List.cons_append, List.nil_append, parseDigitsAux,
        charDigit?_digitChar h10, List.length_append, List.length_cons,
        List.length_nil, zero_add, pow_succ]
      rw [← mul_assoc]
      set M := acc * 10 ^ (natToChars (n / 10)).length with hM
      congr 1
      omega

theorem natToChars_head_digit (n : Nat) :
    ∃ c t, natToChars n = c :: t ∧ ∃ d, charDigit? c = some d := by
  induction n using Nat.strong_induction_on with
  | _ n ih =>
    rw [natToChars]
    split_ifs with h
    · exact ⟨digitChar n, [], rfl, n, charDigit?_digitChar h⟩
    · obtain ⟨c, t, hct, d, hd⟩ := ih (n / 10) (by omega)
      exact ⟨c, t ++ [digitChar (n % 10)], by rw [hct]; rfl, d, hd⟩

/-! ### Round trip for string literals -/

theorem parseStrBody_quote (rest : List Char) :
    parseStrBody ('"' :: rest) = some ([], rest) := by
  cases rest <;> rfl

theorem parseStrBody_esc (e : Char) (rest2 : List Char) :
    parseStrBody ('\\' :: e :: rest2) =
      match escChar? e, parseStrBody rest2 with
      | some ec, some (s, r) => some (ec :: s, r)
      | _, _ => none := rfl

theorem parseStrBody_other {c : Char} (h1 : c ≠ '"') (h2 : c ≠ '\\')
    (rest : List Char) :
    parseStrBody (c :: rest) =
      match parseStrBody rest with
      | some (s, r) => some (c :: s, r)
      | none => none := by
  cases rest <;> simp [parseStrBody, h1, h2]

theorem parseStrBody_escape (s : List Char) :
    ∀ rest, parseStrBody (escapeStr s ++ '"' :: rest) = some (s, rest) := by
  induction s with
  | nil => intro rest; rw [escapeStr, List.nil_append, parseStrBody_quote]
  | cons c s ih =>
    intro rest
    simp only [escapeStr, List.append_assoc]
    unfold escChars
    split_ifs with h1 h2 h3 h4 h5 h6 h7
    · subst h1; simp [parseStrBody_esc, escChar?, ih]
    · subst h2; simp [parseStrBody_esc, escChar?, ih]
    · subst h3; simp [parseStrBody_esc, escChar?, ih]
    · subst h4; simp [parseStrBody_esc, escChar?, ih]
    · subst h5; simp [parseStrBody_esc, escChar?, ih]
    · subst h6; simp [parseStrBody_esc, escChar?, ih]
    · subst h7; simp [parseStrBody_esc, escChar?, ih]
    · simp [parseStrBody_other h1 h2, ih]

/-! ### Shape of rendered values -/

theorem skipWs_cons_of_not_ws {c : Char} {rest : List Char}
    (h : isWsChar c = false) : skipWs (c :: rest) = c :: rest := by
  simp [skipWs, h]

theorem numGuard_of_head {j : Json} {c : Char} {rest : List Char}
    (h : (charDigit? c).isSome = false) : numGuard j (c :: rest) = true := by
  cases j <;> simp [numGuard, h]

theorem numGuard_nil (j : Json) : numGuard j [] = true := by
  cases j <;> simp [numGuard]

theorem natToChars_ne_nil (n : Nat) : natToChars n ≠ [] := by
  rw [natToChars]
  split_ifs <;> simp

theorem intToChars_ne_nil (n : Int) : intToChars n ≠ [] := by
  unfold intToChars
  split_ifs <;> simp [natToChars_ne_nil]

/-- Every rendered value starts with a character that is not whitespace
and not a closing/separator token. -/
theorem render_head_spec (j : Json) :
    ∃ c t, Json.render j = c :: t ∧ isWsChar c = false ∧
      c ≠ ']' ∧ c ≠ rbrace ∧ c ≠ ',' ∧ c ≠ ':' := by
  cases j with
  | null =>
    exact ⟨'n', "ull".data, by simp only [Json.render],
      by decide, by decide, by decide, by decide, by decide⟩
  | bool b =>
    cases b with
    | true =>
      exact ⟨'t', "rue".data, by simp only [Json.render],
        by decide, by decide, by decide, by decide, by decide⟩
    | false =>
      exact ⟨'f', "alse".data, by simp only [Json.render],
        by decide, by decide, by decide, by decide, by decide⟩
  | num n =>
    by_cases hn : n < 0
    · exact ⟨'-', natToChars n.natAbs, by simp [Json.render, intToChars, hn],
        by decide, by decide, by decide, by decide, by decide⟩
    · obtain ⟨c, t, hct, d, hd⟩ := natToChars_head_digit n.toNat
      obtain ⟨hws, _, _, _, hrb, hrbr, _, _, _, _, hcomma, hcolon, _, _⟩ := charDigit?_facts hd
      exact ⟨c, t, by simp [Json.render, intToChars, hn, hct], hws, hrb, hrbr, hcomma, hcolon⟩
  | str s =>
    exact ⟨'"', escapeStr s ++ ['"'], by simp [Json.render, renderString],
      by decide, by decide, by decide, by decide, by decide⟩
  | arr xs =>
    exact ⟨'[', renderItems xs ++ [']'], by simp [Json.render],
      by decide, by decide, by decide, by decide, by decide⟩
  | obj kvs =>
    exact ⟨lbrace, renderMembers kvs ++ [rbrace], by simp [Json.render],
      by decide, by decide, by decide, by decide, by decide⟩

theorem render_length_pos (j : Json) : 1 ≤ (Json.render j).length := by
  obtain ⟨c, t, hct, -⟩ := render_head_spec j
  rw [hct]; simp

theorem skipWs_render (j : Json) (rest : List Char) :
    skipWs (Json.render j ++ rest) = Json.render j ++ rest := by
  obtain ⟨c, t, hct, hws, -⟩ := render_head_spec j
  rw [hct, List.cons_append, skipWs_cons_of_not_ws hws]

/-- Rendering of a non-empty item list starts with the rendering of its
first element. -/
theorem renderItems_cons (x : Json) (xs : List Json) :
    ∃ z, renderItems (x :: xs) = Json.render x ++ z := by
  cases xs with
  | nil => exact ⟨[], by simp [renderItems]⟩
  | cons y ys => exact ⟨',' :: renderItems (y :: ys), by simp [renderItems]⟩

/-- Rendering of a non-empty member list starts with the rendered key of
its first member. -/
theorem renderMembers_cons (kv : List Char × Json) (kvs : List (List Char × Json)) :
    ∃ z, renderMembers (kv :: kvs) = '"' :: escapeStr kv.1 ++ '"' :: z := by
  cases kvs with
  | nil =>
    exact ⟨':' :: Json.render kv.2, by simp [renderMembers, renderString]⟩
  | cons kv2 kvs' =>
    exact ⟨':' :: (Json.render kv.2 ++ ',' :: renderMembers (kv2 :: kvs')),
      by simp [renderMembers, renderString]⟩

theorem headDigit_of_numGuard {n : Int} {rest : List Char}
    (h : numGuard (Json.num n) rest = true) : headDigit rest = false := by
  cases rest with
  | nil => rfl
  | cons c t => simpa [numGuard, headDigit] using h

/-! ### The render/parse round trip -/

set_option maxHeartbeats 2000000 in
theorem parse_render_fueled : ∀ fuel : Nat,
    (∀ j rest, 3 * (Json.render j).length ≤ fuel → numGuard j rest = true →
       parseVF fuel (Json.render j ++ rest) = some (j, rest)) ∧
    (∀ xs rest, 3 * (renderItems xs).length + 3 ≤ fuel →
       parseItemsF fuel (renderItems xs ++ ']' :: rest) = some (xs, rest)) ∧
    (∀ x xs rest, 3 * (renderItems (x :: xs)).length + 2 ≤ fuel →
       parseItems1F fuel (renderItems (x :: xs) ++ ']' :: rest) = some (x :: xs, rest)) ∧
    (∀ kvs rest, 3 * (renderMembers kvs).length + 3 ≤ fuel →
       parseMembersF fuel (renderMembers kvs ++ rbrace :: rest) = some (kvs, rest)) ∧
    (∀ kv kvs rest, 3 * (renderMembers (kv :: kvs)).length + 2 ≤ fuel →
       parseMembers1F fuel (renderMembers (kv :: kvs) ++ rbrace :: rest) =
         some (kv :: kvs, rest)) := by
  intro fuel
  induction fuel with
  | zero =>
    exact ⟨fun j rest hlen _ => absurd hlen (by have := render_length_pos j; omega),
      fun xs rest hlen => absurd hlen (by omega),
      fun x xs rest hlen => absurd hlen (by omega),
      fun kvs rest hlen => absurd hlen (by omega),
      fun kv kvs rest hlen => absurd hlen (by omega)⟩
  | succ f ih =>
    obtain ⟨ih1, ih2, ih2', ih3, ih3'⟩ := ih
    refine ⟨?_, ?_, ?_, ?_, ?_⟩
    -- L1: a rendered value followed by `rest` parses back to the value
    · intro j rest hlen hguard
      cases j with
      | null =>
        rw [show Json.render Json.null = "null".data by simp only [Json.render]]
        rfl
      | bool b =>
        cases b with
        | true =>
          rw [show Json.render (Json.bool true) = "true".data
            by simp only [Json.render]]
          rfl
        | false =>
          rw [show Json.render (Json.bool false) = "false".data
            by simp only [Json.render]]
          rfl
      | num n =>
        by_cases hn : n < 0
        · obtain ⟨c, t, hct, d, hd⟩ := natToChars_head_digit n.natAbs
          rw [show Json.render (Json.num n) ++ rest = '-' :: (c :: (t ++ rest))
            by simp [Json.render, intToChars, hn, hct]]
          rw [show parseVF (f + 1) ('-' :: (c :: (t ++ rest))) =
              (match charDigit? c with
               | some _ => some (Json.num (-((parseDigitsAux (c :: (t ++ rest)) 0).1 : Int)),
                   (parseDigitsAux (c :: (t ++ rest)) 0).2)
               | none => none) from rfl]
          rw [hd]
          simp only []
          rw [show c :: (t ++ rest) = natToChars n.natAbs ++ rest by rw [hct]; rfl]
          rw [parseDigitsAux_natToChars, zero_mul, zero_add,
            parseDigitsAux_stop (headDigit_of_numGuard hguard)]
          have hval : -((n.natAbs : Nat) : Int) = n := by omega
          rw [hval]
        · obtain ⟨c, t, hct, d, hd⟩ := natToChars_head_digit n.toNat
          obtain ⟨hws, hq, hlb, hbr, hrb, hrbr, ht, hf, hnn, hminus, hcm, hcl, hbsl, hd10⟩ :=
            charDigit?_facts hd
          rw [show Json.render (Json.num n) ++ rest = c :: (t ++ rest)
            by simp [Json.render, intToChars, hn, hct]]
          simp only [parseVF]
          rw [skipWs_cons_of_not_ws hws]
          simp only []
          rw [if_neg hq, if_neg hlb, if_neg hbr, if_neg ht, if_neg hf,
            if_neg hnn, if_neg hminus, hd]
          simp only []
          rw [show c :: (t ++ rest) = natToChars n.toNat ++ rest by rw [hct]; rfl]
          rw [parseDigitsAux_natToChars, zero_mul, zero_add,
            parseDigitsAux_stop (headDigit_of_numGuard hguard)]
          have hval : ((n.toNat : Nat) : Int) = n := by omega
          rw [hval]
      | str s =>
        rw [show Json.render (Json.str s) ++ rest = '"' :: (escapeStr s ++ '"' :: rest)
          by simp [Json.render, renderString]]
        rw [show parseVF (f + 1) ('"' :: (escapeStr s ++ '"' :: rest)) =
            (match parseStrBody (escapeStr s ++ '"' :: rest) with
             | some (s, r) => some (Json.str s, r)
             | none => none) from rfl]
        rw [parseStrBody_escape]
      | arr xs =>
        have hlen' : 3 * (renderItems xs).length + 3 ≤ f := by
          simp [Json.render] at hlen; omega
        rw [show Json.render (Json.arr xs) ++ rest = '[' :: (renderItems xs ++ ']' :: rest)
          by simp [Json.render]]
        rw [show parseVF (f + 1) ('[' :: (renderItems xs ++ ']' :: rest)) =
            (match parseItemsF f (renderItems xs ++ ']' :: rest) with
             | some (xs, r) => some (Json.arr xs, r)
             | none => none) from rfl]
        rw [ih2 xs rest hlen']
      | obj kvs =>
        have hlen' : 3 * (renderMembers kvs).length + 3 ≤ f := by
          simp [Json.render] at hlen; omega
        rw [show Json.render (Json.obj kvs) ++ rest = lbrace :: (renderMembers kvs ++ rbrace :: rest)
          by simp [Json.render]]
        rw [show parseVF (f + 1) (lbrace :: (renderMembers kvs ++ rbrace :: rest)) =
            (match parseMembersF f (renderMembers kvs ++ rbrace :: rest) with
             | some (kvs, r) => some (Json.obj kvs, r)
             | none => none) from rfl]
        rw [ih3 kvs rest hlen']
    -- L2: the inside of an array
    · intro xs rest hlen
      cases xs with
      | nil =>
        rw [show renderItems [] ++ ']' :: rest = ']' :: rest by simp [renderItems]]
        rfl
      | cons x xs =>
        obtain ⟨z, hz⟩ := renderItems_cons x xs
        obtain ⟨c, t, hct, hws, hrb, hrbr, hcm, hcl⟩ := render_head_spec x
        have hshape : renderItems (x :: xs) ++ ']' :: rest =
            c :: (t ++ z ++ ']' :: rest) := by
          rw [hz, hct]; simp
        rw [hshape]
        simp only [parseItemsF]
        rw [skipWs_cons_of_not_ws hws]
        simp only []
        rw [if_neg hrb]
        rw [show c :: (t ++ z ++ ']' :: rest) =
          renderItems (x :: xs) ++ ']' :: rest by rw [hshape]]
        exact ih2' x xs rest (by omega)
    -- L2': a non-empty comma-separated element list
    · intro x xs rest hlen
      cases xs with
      | nil =>
        have hlx : 3 * (Json.render x).length ≤ f := by
          simp [renderItems] at hlen; omega
        rw [show renderItems [x] ++ ']' :: rest = Json.render x ++ ']' :: rest
          by simp [renderItems]]
        simp only [parseItems1F]
        rw [ih1 x (']' :: rest) hlx (numGuard_of_head (by decide))]
        simp only []
        rw [skipWs_cons_of_not_ws (by decide)]
        rfl
      | cons y ys =>
        have hri : renderItems (x :: y :: ys) =
            Json.render x ++ ',' :: renderItems (y :: ys) := by
          simp [renderItems]
        have hlx : 3 * (Json.render x).length ≤ f := by
          rw [hri] at hlen; simp at hlen; omega
        have hly : 3 * (renderItems (y :: ys)).length + 2 ≤ f := by
          rw [hri] at hlen; simp at hlen; omega
        rw [show renderItems (x :: y :: ys) ++ ']' :: rest =
            Json.render x ++ (',' :: (renderItems (y :: ys) ++ ']' :: rest))
          by rw [hri]; simp]
        simp only [parseItems1F]
        rw [ih1 x _ hlx (numGuard_of_head (by decide))]
        simp only []
        rw [skipWs_cons_of_not_ws (by decide)]
        simp only []
        rw [ih2' y ys rest hly]
    -- L3: the inside of an object
    · intro kvs rest hlen
      cases kvs with
      | nil =>
        rw [show renderMembers [] ++ rbrace :: rest = rbrace :: rest by simp [renderMembers]]
        rfl
      | cons kv kvs =>
        obtain ⟨z, hz⟩ := renderMembers_cons kv kvs
        have hshape : renderMembers (kv :: kvs) ++ rbrace :: rest =
            '"' :: (escapeStr kv.1 ++ '"' :: z ++ rbrace :: rest) := by
          rw [hz]; simp
        rw [hshape]
        simp only [parseMembersF]
        rw [skipWs_cons_of_not_ws (by decide)]
        simp only []
        rw [if_neg (show ('"' : Char) ≠ rbrace by decide)]
        rw [show '"' :: (escapeStr kv.1 ++ '"' :: z ++ rbrace :: rest) =
          renderMembers (kv :: kvs) ++ rbrace :: rest by rw [hshape]]
        exact ih3' kv kvs rest (by omega)
    -- L3': a non-empty comma-separated member list
    · intro kv kvs rest hlen
      cases kvs with
      | nil =>
        have hrm : renderMembers [kv] =
            renderString kv.1 ++ ':' :: Json.render kv.2 := by
          simp [renderMembers]
        have hlv : 3 * (Json.render kv.2).length ≤ f := by
          rw [hrm] at hlen; simp [renderString] at hlen; omega
        rw [show renderMembers [kv] ++ rbrace :: rest =
            '"' :: (escapeStr kv.1 ++ '"' :: (':' :: (Json.render kv.2 ++ rbrace :: rest)))
          by rw [hrm]; simp [renderString]]
        simp only [parseMembers1F]
        rw [skipWs_cons_of_not_ws (by decide)]
        simp only [if_true]
        rw [parseStrBody_escape]
        simp only []
        rw [skipWs_cons_of_not_ws (by decide)]
        simp only []
        rw [ih1 kv.2 _ hlv (numGuard_of_head (by decide))]
        simp only []
        rw [skipWs_cons_of_not_ws (by decide)]
        rfl
      | cons kv2 kvs' =>
        have hrm : renderMembers (kv :: kv2 :: kvs') =
            renderString kv.1 ++ ':' ::
              (Json.render kv.2 ++ ',' :: renderMembers (kv2 :: kvs')) := by
          simp [renderMembers]
        have hlv : 3 * (Json.render kv.2).length ≤ f := by
          rw [hrm] at hlen; simp [renderString] at hlen; omega
        have hlm : 3 * (renderMembers (kv2 :: kvs')).length + 2 ≤ f := by
          rw [hrm] at hlen; simp [renderString] at hlen; omega
        rw [show renderMembers (kv :: kv2 :: kvs') ++ rbrace :: rest =
            '"' :: (escapeStr kv.1 ++ '"' :: (':' :: (Json.render kv.2 ++
              ',' :: (renderMembers (kv2 :: kvs') ++ rbrace :: rest))))
          by rw [hrm]; simp [renderString]]
        simp only [parseMembers1F]
        rw [skipWs_cons_of_not_ws (by decide)]
        simp only [if_true]
        rw [parseStrBody_escape]
        simp only []
        rw [skipWs_cons_of_not_ws (by decide)]
        simp only []
        rw [ih1 kv.2 _ hlv (numGuard_of_head (by decide))]
        simp only []
        rw [skipWs_cons_of_not_ws (by decide)]
        simp only []
        rw [ih3' kv2 kvs' rest hlm]

/-- The render/parse round trip: `parseJson` inverts `Json.render`. -/
theorem parseJson_render (j : Json) : parseJson (Json.render j) = some j := by
  unfold parseJson
  have h := (parse_render_fueled (3 * (Json.render j).length + 3)).1 j []
    (by omega) (numGuard_nil j)
  rw [List.append_nil] at h
  rw [h]
  rfl

/-! ### Python string primitives used by `_parse_llm_response`
(`orchestrator.py`, lines 548-555) -/

/-- Model of Python `str.find` for a single character: index of the first
occurrence, `-1` if absent. -/
def pyFind (s : List Char) (c : Char) : Int :=
  match s with
  | [] => -1
  | x :: rest =>
    if x = c then 0
    else
      let r := pyFind rest c
      if r < 0 then -1 else r + 1

/-- Model of Python `str.rfind` for a single character: index of the last
occurrence, `-1` if absent. -/
def pyRfind (s : List Char) (c : Char) : Int :=
  let r := pyFind s.reverse c
  if r < 0 then -1 else (s.length : Int) - 1 - r

/-- Model of the Python slice `s[a:b]` for the only case the normalizer
exercises (`0 ≤ a < b`). -/
def pySlice (s : List Char) (a b : Int) : List Char :=
  (s.drop a.toNat).take (b.toNat - a.toNat)

/-! ### The response normalizer (`orchestrator.py`, lines 533-589) -/

/-- The reply dict produced by the `_call_llm` adapters and consumed by
`_parse_llm_response` / `quick_advice`: a `content` entry (`none` models
an absent key) and an optional `reasoning` entry. -/
structure LLMReply where
  content : Option (List Char)
  reasoning : Option (List Char)

/-- Python truthiness of an optional string (`None` and `""` are falsy). -/
def truthyChars : Option (List Char) → Bool
  | none => false
  | some s => !s.isEmpty

/-- Membership test on the key of an association list (Python `k in d`). -/
def hasKey (kvs : List (List Char × Json)) (k : List Char) : Bool :=
  kvs.any (fun kv => decide (kv.1 = k))

/-- Python dict assignment `d[k] = v` on an insertion-ordered association
list: replace in place when the key exists, append otherwise. -/
def setKey (kvs : List (List Char × Json)) (k : List Char) (v : Json) :
    List (List Char × Json) :=
  if hasKey kvs k then kvs.map (fun kv => if kv.1 = k then (k, v) else kv)
  else kvs ++ [(k, v)]

/-- Python dict lookup `d.get(k)` on an association list. -/
def getKey? (kvs : List (List Char × Json)) (k : List Char) : Option Json :=
  match kvs.find? (fun kv => decide (kv.1 = k)) with
  | some kv => some kv.2
  | none => none

/-- Lookup of a field of a JSON object. -/
def jGet : Json → List Char → Option Json
  | .obj kvs, k => getKey? kvs k
  | _, _ => none

/-- Whether a JSON value is an object (a Python dict). -/
def Json.isObj : Json → Bool
  | .obj _ => true
  | _ => false

/-- The key `"reasoning_trace"`. -/
def rtKey : List Char := "reasoning_trace".data

/-- Model of `if reasoning: advice["reasoning_trace"] = reasoning`
(`orchestrator.py`, lines 558-559).  On the success path `advice` is
always a dict, since the parsed candidate starts with `{`. -/
def attachReasoning (advice : Json) (reasoning : Option (List Char)) : Json :=
  if truthyChars reasoning then
    match advice, reasoning with
    | .obj kvs, some r => Json.obj (setKey kvs rtKey (Json.str r))
    | _, _ => advice
  else advice

/-- A Python value that is either a string or `None`, as a JSON field. -/
def jsonOfOpt : Option (List Char) → Json
  | none => Json.null
  | some r => Json.str r

/-- Model of `_fallback_parse` (`orchestrator.py`, lines 569-589), verbatim. -/
def fallback_parse (content : List Char) (reasoning : Option (List Char)) : Json :=
  Json.obj [
    ("root_cause_summary".data,
      Json.str "Unable to parse structured response. See raw content below.".data),
    ("critical_issues".data,
      Json.arr [Json.str "LLM response could not be parsed into structured format".data]),
    ("relaxation_suggestions".data,
      Json.arr [Json.obj [
        ("priority".data, Json.num 1),
        ("constraint_to_relax".data, Json.str "Unknown".data),
        ("relaxation_strategy".data, Json.str (content.take 500)),
        ("description".data, Json.str "Raw LLM response".data),
        ("expected_impact".data, Json.str "Unknown".data),
        ("risk_level".data, Json.str "unknown".data)]]),
    ("long_term_recommendations".data, Json.arr []),
    ("reasoning_trace".data, jsonOfOpt reasoning),
    ("raw_content".data, Json.str content)]

/-- The brace-span candidate extraction of `_parse_llm_response`
(`orchestrator.py`, lines 550-554): locate the first `{` and the last
`}`; when both exist in order, the text between them is the candidate
JSON document. -/
def extract_candidate (content : List Char) : Option (List Char) :=
  let start_idx := pyFind content lbrace
  let end_idx := pyRfind content rbrace + 1
  if start_idx ≥ 0 ∧ end_idx > start_idx then
    some (pySlice content start_idx end_idx)
  else none

/-- Model of `_parse_llm_response` (`orchestrator.py`, lines 533-567).  The unused
`diagnostic_data` parameter of the Python method is omitted; `content`
is `response.get("content", "")` and `reasoning` is
`response.get("reasoning", None)`. -/
def parse_llm_response (response : LLMReply) : Json :=
  let content := response.content.getD []
  let reasoning := response.reasoning
  match extract_candidate content with
  | some json_str =>
    match parseJson json_str with
    | some advice => attachReasoning advice reasoning
    | none => fallback_parse content reasoning
  | none => fallback_parse content reasoning

/-- Model of the `quick_advice` result handling (`orchestrator.py`, line 117):
`response.get("content", "No advice available")`.  The network call that
produces `response` is abstracted as the argument. -/
def quick_advice (response : LLMReply) : List Char :=
  response.content.getD "No advice available".data

/-! ### The prompt compiler fragments the claims are about
(`orchestrator.py`, lines 119-167 and 303-328) -/

/-- One entry of `daily_diagnostics` (the fields `_build_analysis_prompt`
and `_format_critical_days` read). -/
structure DayDiagnostic where
  day : Int
  weekday : String
  required_coverage : Int
  available_employees : Int
  effective_capacity : Int
  capacity_gap : Int
  is_weekend : Bool

/-- One detected constraint violation (the fields `_format_violations`
reads). -/
structure ConstraintViolation where
  constraint_type : String
  severity : String
  description : String

/-- Model of `critical_days = [d for d in daily_diagnostics if d["capacity_gap"] > 0]`
(`orchestrator.py`, lines 128-131). -/
def criticalDays (daily_diagnostics : List DayDiagnostic) : List DayDiagnostic :=
  daily_diagnostics.filter (fun d => decide (d.capacity_gap > 0))

/-- The line rendered for one critical day
(`orchestrator.py`, lines 310-315). -/
def criticalDayLine (d : DayDiagnostic) : String :=
  "Day " ++ toString d.day ++ " (" ++ d.weekday ++ "): Need " ++
    toString d.required_coverage ++ ", Available " ++
    toString d.effective_capacity ++ ", GAP: " ++ toString d.capacity_gap

/-- Model of `_format_critical_days` (`orchestrator.py`, lines 303-316). -/
def format_critical_days (critical_days : List DayDiagnostic) : String :=
  if critical_days.isEmpty then "None"
  else String.intercalate "\n" (critical_days.map criticalDayLine)

/-- The text inserted under the prompt heading `### Most Critical Days:`
— `self._format_critical_days(critical_days[:10])`
(`orchestrator.py`, line 164). -/
def section_most_critical_days (daily_diagnostics : List DayDiagnostic) : String :=
  format_critical_days ((criticalDays daily_diagnostics).take 10)

/-- The line rendered for one violation (`orchestrator.py`, lines 324-327). -/
def violationLine (v : ConstraintViolation) : String :=
  "- [" ++ v.severity.toUpper ++ "] " ++ v.constraint_type ++ ": " ++ v.description

/-- Model of `_format_violations` (`orchestrator.py`, lines 318-328); the argument
is `Optional[List[Dict]]` and `if not violations` catches both `None`
and the empty list. -/
def format_violations (violations : Option (List ConstraintViolation)) : String :=
  match violations with
  | none => "None detected"
  | some [] => "None detected"
  | some vs => String.intercalate "\n" (vs.map violationLine)

/-! ### Orchestrator construction and configuration
(`orchestrator.py`, lines 20-71) -/

/-- The environment variables the constructor reads. -/
structure Env where
  llm_api_key : Option String
  ollama_base_url : Option String

/-- Python `a or b` on optional strings (`a` wins when truthy). -/
def pyOrOpt (a b : Option String) : Option String :=
  match a with
  | some s => if s = "" then b else some s
  | none => b

/-- Python truthiness of an optional string. -/
def truthyStr : Option String → Bool
  | none => false
  | some s => !(s = "")

/-- Python `str.lower` (ASCII, which is all the providers use). -/
def pyLower (s : String) : String := String.mk (s.data.map Char.toLower)

/-- Model of `_get_default_model` (`orchestrator.py`, lines 45-53). -/
def get_default_model (provider : String) : String :=
  if provider = "deepseek" then "deepseek-reasoner"
  else if provider = "openai" then "gpt-4-turbo"
  else if provider = "anthropic" then "claude-3-opus-20240229"
  else if provider = "ollama" then "llama3.1:8b"
  else "deepseek-reasoner"

/-- Model of `_configure_provider` (`orchestrator.py`, lines 55-67): the API base
for a supported provider, or a `ValueError` for anything else. -/
def configure_provider (provider : String) (env : Env) : Except String String :=
  if provider = "deepseek" then .ok "https://api.deepseek.com/v1"
  else if provider = "openai" then .ok "https://api.openai.com/v1"
  else if provider = "anthropic" then .ok "https://api.anthropic.com/v1"
  else if provider = "ollama" then
    .ok (env.ollama_base_url.getD "http://localhost:11434/v1")
  else .error ("Unsupported provider: " ++ provider)

/-- The state set up by `PlanningOrchestrator.__init__`. -/
structure PlanningOrchestrator where
  api_key : Option String
  provider : String
  model : String
  api_base : String

/-- Model of `PlanningOrchestrator.__init__` (`orchestrator.py`, lines 20-43):
resolves the key from the argument or `LLM_API_KEY`, lower-cases the
provider, fills in the default model, and raises (`Except.error`) when a
non-local provider has no key or the provider is unsupported.  No
network access happens here. -/
def PlanningOrchestrator.init (api_key : Option String) (provider : String)
    (model : Option String) (env : Env) : Except String PlanningOrchestrator :=
  let key := pyOrOpt api_key env.llm_api_key
  let prov := pyLower provider
  let mdl := match model with
    | some m => if m = "" then get_default_model prov else m
    | none => get_default_model prov
  if prov ≠ "ollama" ∧ truthyStr key = false then
    .error ("API key required for " ++ prov)
  else
    match configure_provider prov env with
    | .ok base => .ok ⟨key, prov, mdl, base⟩
    | .error e => .error e

/-- Model of `is_configured` (`orchestrator.py`, lines 69-71):
`bool(self.api_key and self.provider and self.model)` — note that it
requires a truthy key for every provider, ollama included. -/
def is_configured (o : PlanningOrchestrator) : Bool :=
  truthyStr o.api_key && !(o.provider = "") && !(o.model = "")

/-! ### Lemmas about the brace-span extraction -/

theorem pyFind_cons_eq (c : Char) (s : List Char) : pyFind (c :: s) c = 0 := by
  simp [pyFind]

theorem pyFind_cons_ne {x c : Char} (h : ¬ x = c) (s : List Char) :
    pyFind (x :: s) c = if pyFind s c < 0 then -1 else pyFind s c + 1 := by
  simp [pyFind, h]

theorem pyFind_not_mem {s : List Char} {c : Char} (h : c ∉ s) :
    pyFind s c = -1 := by
  induction s with
  | nil => rfl
  | cons x rest ih =>
    simp only [List.mem_cons, not_or] at h
    have hx : ¬ x = c := fun hh => h.1 hh.symm
    rw [pyFind_cons_ne hx, ih h.2]
    rfl

theorem pyFind_append_cons {pre : List Char} {c : Char} (h : c ∉ pre)
    (t : List Char) : pyFind (pre ++ c :: t) c = pre.length := by
  induction pre with
  | nil => simp [pyFind_cons_eq]
  | cons x rest ih =>
    simp only [List.mem_cons, not_or] at h
    have hx : ¬ x = c := fun hh => h.1 hh.symm
    rw [List.cons_append, pyFind_cons_ne hx, ih h.2]
    rw [if_neg (by omega)]
    simp only [List.length_cons]
    push_cast
    ring

theorem pyFind_nonneg_drop (s : List Char) (c : Char)
    (h : 0 ≤ pyFind s c) : ∃ t, s.drop (pyFind s c).toNat = c :: t := by
  induction s with
  | nil => simp [pyFind] at h
  | cons x rest ih =>
    by_cases hxc : x = c
    · subst hxc
      exact ⟨rest, by simp [pyFind_cons_eq]⟩
    · rw [pyFind_cons_ne hxc] at h ⊢
      by_cases hr : pyFind rest c < 0
      · rw [if_pos hr] at h
        omega
      · rw [if_neg hr] at h ⊢
        push_neg at hr
        obtain ⟨t, ht⟩ := ih hr
        refine ⟨t, ?_⟩
        rw [show (pyFind rest c + 1).toNat = (pyFind rest c).toNat + 1 by omega]
        simpa using ht

theorem pyRfind_concat {A post : List Char} {c : Char} (h : c ∉ post) :
    pyRfind (A ++ [c] ++ post) c = A.length := by
  have hrev : (A ++ [c] ++ post).reverse = post.reverse ++ c :: A.reverse := by
    simp
  have hmem : c ∉ post.reverse := by simpa using h
  unfold pyRfind
  rw [hrev, pyFind_append_cons hmem]
  have : (0 : Int) ≤ (post.reverse.length : Int) := Int.ofNat_nonneg _
  rw [if_neg (by omega)]
  simp
  omega

/-- The candidate the normalizer extracts from a reply that wraps a
brace-delimited document in brace-free text is exactly that document. -/
theorem extract_candidate_wrapped {pre post body : List Char}
    (hpre : lbrace ∉ pre) (hpost : rbrace ∉ post) :
    extract_candidate (pre ++ (lbrace :: body ++ [rbrace]) ++ post) =
      some (lbrace :: body ++ [rbrace]) := by
  have hfind : pyFind (pre ++ (lbrace :: body ++ [rbrace]) ++ post) lbrace =
      pre.length := by
    rw [show pre ++ (lbrace :: body ++ [rbrace]) ++ post =
      pre ++ lbrace :: (body ++ [rbrace] ++ post) by simp]
    exact pyFind_append_cons hpre _
  have hrfind : pyRfind (pre ++ (lbrace :: body ++ [rbrace]) ++ post) rbrace =
      pre.length + 1 + body.length := by
    rw [show pre ++ (lbrace :: body ++ [rbrace]) ++ post =
      (pre ++ lbrace :: body) ++ [rbrace] ++ post by simp]
    rw [pyRfind_concat hpost]
    simp only [List.length_append, List.length_cons]
    push_cast
    ring
  unfold extract_candidate
  rw [hfind, hrfind]
  rw [if_pos (by constructor <;> [positivity; omega])]
  congr 1
  unfold pySlice
  have h2 : ((pre.length : Int) + 1 + body.length + 1).toNat - ((pre.length : Int)).toNat
      = body.length + 2 := by omega
  have h1 : ((pre.length : Int)).toNat = pre.length := by omega
  rw [h2, h1]
  rw [show pre ++ (lbrace :: body ++ [rbrace]) ++ post =
    pre ++ ((lbrace :: body ++ [rbrace]) ++ post) by simp]
  rw [List.drop_left]
  rw [show body.length + 2 = (lbrace :: body ++ [rbrace]).length by simp]
  exact List.take_left _ _

theorem extract_candidate_no_lbrace {content : List Char}
    (h : lbrace ∉ content) : extract_candidate content = none := by
  unfold extract_candidate
  rw [pyFind_not_mem h]
  rw [if_neg (by omega)]

theorem extract_candidate_head {content js : List Char}
    (h : extract_candidate content = some js) : ∃ t, js = lbrace :: t := by
  simp only [extract_candidate] at h
  split_ifs at h with hg
  · obtain ⟨hs, he⟩ := hg
    obtain ⟨t, ht⟩ := pyFind_nonneg_drop content lbrace hs
    injection h with h
    subst h
    unfold pySlice
    rw [ht]
    have hpos : (pyRfind content rbrace + 1).toNat - (pyFind content lbrace).toNat
        = ((pyRfind content rbrace + 1).toNat - (pyFind content lbrace).toNat - 1) + 1 := by
      omega
    rw [hpos]
    exact ⟨_, rfl⟩

/-! ### Helper lemmas for the claims -/

/-- The field the normalizer appends for a truthy reasoning trace. -/
def reasoningField : Option (List Char) → List (List Char × Json)
  | none => []
  | some r => if r = [] then [] else [(rtKey, Json.str r)]

theorem attachReasoning_obj_append {kvs : List (List Char × Json)}
    (h : hasKey kvs rtKey = false) (r : Option (List Char)) :
    attachReasoning (Json.obj kvs) r = Json.obj (kvs ++ reasoningField r) := by
  cases r with
  | none => simp [attachReasoning, truthyChars, reasoningField]
  | some s =>
    cases s with
    | nil => simp [attachReasoning, truthyChars, reasoningField]
    | cons c t =>
      simp [attachReasoning, truthyChars, reasoningField, setKey, h]

/-- On a reply whose content wraps one rendered JSON object in brace-free
text, the normalizer returns the parsed object with the reasoning trace
attached. -/
theorem parse_llm_response_wrapped (pre post : List Char)
    (kvs : List (List Char × Json)) (r : Option (List Char))
    (hpre : lbrace ∉ pre) (hpost : rbrace ∉ post) :
    parse_llm_response ⟨some (pre ++ Json.render (Json.obj kvs) ++ post), r⟩ =
      attachReasoning (Json.obj kvs) r := by
  have hshape : Json.render (Json.obj kvs) =
      lbrace :: renderMembers kvs ++ [rbrace] := by
    simp [Json.render]
  unfold parse_llm_response
  simp only [Option.getD]
  rw [hshape, extract_candidate_wrapped hpre hpost]
  simp only []
  rw [← hshape, parseJson_render]

theorem parseVF_succ_lbrace (f : Nat) (t : List Char) :
    parseVF (f + 1) (lbrace :: t) =
      (match parseMembersF f t with
       | some (kvs, r) => some (Json.obj kvs, r)
       | none => none) := rfl

theorem parseJson_lbrace_isObj {t : List Char} {j : Json}
    (h : parseJson (lbrace :: t) = some j) : j.isObj = true := by
  unfold parseJson at h
  rw [show 3 * (lbrace :: t).length + 3 = (3 * (lbrace :: t).length + 2) + 1 by omega,
    parseVF_succ_lbrace] at h
  rcases hm : parseMembersF (3 * (lbrace :: t).length + 2) t with - | ⟨kvs, rest⟩
  · rw [hm] at h
    simp at h
  · rw [hm] at h
    simp only [] at h
    split_ifs at h
    injection h with h
    subst h
    rfl

theorem attachReasoning_isObj {advice : Json} (h : advice.isObj = true)
    (r : Option (List Char)) : (attachReasoning advice r).isObj = true := by
  cases advice with
  | null => simp [Json.isObj] at h
  | bool b => simp [Json.isObj] at h
  | num n => simp [Json.isObj] at h
  | str s => simp [Json.isObj] at h
  | arr xs => simp [Json.isObj] at h
  | obj kvs =>
    cases r with
    | none => rfl
    | some s =>
      cases s with
      | nil => rfl
      | cons c t => rfl

theorem fallback_parse_isObj (content : List Char) (r : Option (List Char)) :
    (fallback_parse content r).isObj = true := rfl

theorem getKey?_cons (kv : List Char × Json) (kvs : List (List Char × Json))
    (k' : List Char) :
    getKey? (kv :: kvs) k' = if kv.1 = k' then some kv.2 else getKey? kvs k' := by
  by_cases hh : kv.1 = k' <;> simp [getKey?, List.find?, hh]

theorem getKey?_map_set {k k' : List Char} (h : k' ≠ k) (v : Json) :
    ∀ kvs, getKey? (kvs.map (fun kv => if kv.1 = k then (k, v) else kv)) k' =
      getKey? kvs k' := by
  intro kvs
  induction kvs with
  | nil => rfl
  | cons kv rest ih =>
    by_cases hkv : kv.1 = k
    · rw [List.map_cons, if_pos hkv, getKey?_cons, getKey?_cons]
      rw [if_neg (show ¬ (((k, v) : List Char × Json).1 = k') from
        fun hh => h (hh.symm))]
      rw [if_neg (show ¬ (kv.1 = k') from by rw [hkv]; exact fun hh => h hh.symm)]
      exact ih
    · rw [List.map_cons, if_neg hkv, getKey?_cons, getKey?_cons]
      by_cases hh : kv.1 = k'
      · rw [if_pos hh, if_pos hh]
      · rw [if_neg hh, if_neg hh]
        exact ih

theorem getKey?_append_single {k k' : List Char} (h : k' ≠ k) (v : Json) :
    ∀ kvs, getKey? (kvs ++ [(k, v)]) k' = getKey? kvs k' := by
  intro kvs
  induction kvs with
  | nil =>
    rw [List.nil_append, getKey?_cons]
    rw [if_neg (show ¬ (((k, v) : List Char × Json).1 = k') from
      fun hh => h (hh.symm))]
  | cons kv rest ih =>
    rw [List.cons_append, getKey?_cons, getKey?_cons]
    by_cases hh : kv.1 = k'
    · rw [if_pos hh, if_pos hh]
    · rw [if_neg hh, if_neg hh]
      exact ih

/-- Dict assignment at one key leaves lookups at every other key
unchanged. -/
theorem getKey?_setKey_ne {kvs : List (List Char × Json)} {k k' : List Char}
    (h : k' ≠ k) (v : Json) : getKey? (setKey kvs k v) k' = getKey? kvs k' := by
  unfold setKey
  split_ifs with hk
  · exact getKey?_map_set h v kvs
  · exact getKey?_append_single h v kvs

/-! ## The claims -/

/-- C1: for every backend reply whose content text is a valid JSON object
matching the AdviceResult contract (modelled as the serialization of an
object with distinct field names and no `reasoning_trace` field, over
the JSON fragment the program exchanges), `_parse_llm_response` returns
that object with every field unchanged and attaches the reasoning trace
as a `reasoning_trace` field whenever the backend supplied one (Python
truthiness: a supplied trace is a non-empty string; `reasoningField` is
empty otherwise). -/
theorem C1_round_trip (kvs : List (List Char × Json)) (r : Option (List Char))
    (hnodup : (kvs.map Prod.fst).Nodup)
    (hkey : hasKey kvs rtKey = false) :
    parse_llm_response ⟨some (Json.render (Json.obj kvs)), r⟩ =
      Json.obj (kvs ++ reasoningField r) := by
  have h := parse_llm_response_wrapped [] [] kvs r (by simp) (by simp)
  simp only [List.nil_append, List.append_nil] at h
  rw [h, attachReasoning_obj_append hkey]

theorem C1_round_trip_witness :
    (([("a".data, Json.num 1)] : List (List Char × Json)).map Prod.fst).Nodup ∧
    hasKey [("a".data, Json.num 1)] rtKey = false ∧
    parse_llm_response ⟨some (Json.render (Json.obj [("a".data, Json.num 1)])),
        some "why".data⟩ =
      Json.obj ([("a".data, Json.num 1)] ++ reasoningField (some "why".data)) :=
  ⟨by decide, rfl,
   C1_round_trip [("a".data, Json.num 1)] (some "why".data) (by decide) rfl⟩

/-- C2: for every reply text containing no `{`, the normalizer returns the
fallback AdviceResult whose single RelaxationSuggestion has priority 1,
target "Unknown", risk level "unknown" and the first 500 characters of
the raw reply as its strategy, with the full raw reply preserved
verbatim in `raw_content`. -/
theorem C2_fallback_no_brace (content : List Char) (r : Option (List Char))
    (h : lbrace ∉ content) :
    parse_llm_response ⟨some content, r⟩ = fallback_parse content r ∧
    jGet (parse_llm_response ⟨some content, r⟩) "relaxation_suggestions".data =
      some (Json.arr [Json.obj [
        ("priority".data, Json.num 1),
        ("constraint_to_relax".data, Json.str "Unknown".data),
        ("relaxation_strategy".data, Json.str (content.take 500)),
        ("description".data, Json.str "Raw LLM response".data),
        ("expected_impact".data, Json.str "Unknown".data),
        ("risk_level".data, Json.str "unknown".data)]]) ∧
    jGet (parse_llm_response ⟨some content, r⟩) "raw_content".data =
      some (Json.str content) := by
  have hfb : parse_llm_response ⟨some content, r⟩ = fallback_parse content r := by
    unfold parse_llm_response
    simp only [Option.getD]
    rw [extract_candidate_no_lbrace h]
  refine ⟨hfb, ?_, ?_⟩ <;> rw [hfb] <;> rfl

theorem C2_fallback_no_brace_witness :
    lbrace ∉ "hello".data ∧
    parse_llm_response ⟨some "hello".data, none⟩ =
      fallback_parse "hello".data none :=
  ⟨by decide, (C2_fallback_no_brace "hello".data none (by decide)).1⟩

/-- C3: the normalizer is total — for every reply it returns an
AdviceResult dict (never an exception, modelled by `parse_llm_response`
being a total function into JSON objects), and whenever candidate
extraction or the strict parse fails it degrades to the fallback
AdviceResult. -/
theorem C3_totality (response : LLMReply) :
    (parse_llm_response response).isObj = true ∧
    ((extract_candidate (response.content.getD [])).bind parseJson = none →
      parse_llm_response response =
        fallback_parse (response.content.getD []) response.reasoning) := by
  constructor
  · unfold parse_llm_response
    rcases he : extract_candidate (response.content.getD []) with - | js
    · simp only [he]
      exact fallback_parse_isObj _ _
    · simp only [he]
      rcases hp : parseJson js with - | advice
      · simp only [hp]
        exact fallback_parse_isObj _ _
      · simp only [hp]
        obtain ⟨t, ht⟩ := extract_candidate_head he
        subst ht
        exact attachReasoning_isObj (parseJson_lbrace_isObj hp) _
  · intro hnone
    unfold parse_llm_response
    rcases he : extract_candidate (response.content.getD []) with - | js
    · simp only [he]
    · rw [he] at hnone
      simp only [Option.some_bind] at hnone
      rcases hp : parseJson js with - | advice
      · simp only [he, hp]
      · rw [hp] at hnone
        simp at hnone

theorem C3_totality_witness :
    parse_llm_response ⟨some "hello".data, none⟩ =
      fallback_parse "hello".data none ∧
    (parse_llm_response ⟨some "hello".data, none⟩).isObj = true :=
  ⟨(C3_totality ⟨some "hello".data, none⟩).2 (by rfl),
   (C3_totality ⟨some "hello".data, none⟩).1⟩

/-- C4: evaluation of the code at the failing input of the claim.  The
claim says `is_configured` is true for the local provider (ollama) with
a model and no credential; constructing exactly that orchestrator
succeeds (the constructor's own comment says no key is required for
local providers), yet `is_configured` returns `false`, because line 71
demands a truthy `api_key` for every provider. -/
theorem C4_is_configured_ollama :
    PlanningOrchestrator.init none "ollama" none ⟨none, none⟩ =
      Except.ok (⟨none, "ollama", "llama3.1:8b", "http://localhost:11434/v1"⟩ :
        PlanningOrchestrator) ∧
    is_configured ⟨none, "ollama", "llama3.1:8b", "http://localhost:11434/v1"⟩ =
      false := by
  constructor <;> rfl

/-- C5: constructing the orchestrator with a non-local provider, no
credential argument and no environment credential fails with a
configuration error (the model performs no network access at all), and
constructing it with the local provider and no credential succeeds. -/
theorem C5_construction (provider : String) (model : Option String) (env : Env)
    (hnonlocal : pyLower provider ≠ "ollama") (henv : env.llm_api_key = none) :
    (∃ msg, PlanningOrchestrator.init none provider model env =
      Except.error msg) ∧
    (∀ model2 env2,
      ∃ o, PlanningOrchestrator.init none "ollama" model2 env2 = Except.ok o) := by
  constructor
  · refine ⟨"API key required for " ++ pyLower provider, ?_⟩
    unfold PlanningOrchestrator.init
    rw [henv]
    rw [if_pos ⟨hnonlocal, rfl⟩]
  · intro model2 env2
    unfold PlanningOrchestrator.init
    rw [if_neg (by simp [pyLower])]
    have hconf : configure_provider (pyLower "ollama") env2 =
        Except.ok (env2.ollama_base_url.getD "http://localhost:11434/v1") := by
      rfl
    rw [hconf]
    exact ⟨_, rfl⟩

theorem C5_construction_witness :
    pyLower "deepseek" ≠ "ollama" ∧
    (∃ msg, PlanningOrchestrator.init none "deepseek" none ⟨none, none⟩ =
      Except.error msg) ∧
    (∃ o, PlanningOrchestrator.init none "ollama" none ⟨none, none⟩ =
      Except.ok o) := by
  have h := C5_construction "deepseek" none ⟨none, none⟩ (by decide) rfl
  exact ⟨by decide, h.1, h.2 none ⟨none, none⟩⟩

/-- The success-path reply used to refute C6: a syntactically valid JSON
object whose single relaxation suggestion carries risk level "unknown". -/
def c6content : List Char :=
  [lbrace] ++ "\"relaxation_suggestions\":[".data ++ [lbrace] ++
    "\"risk_level\":\"unknown\"".data ++ [rbrace] ++ "]".data ++ [rbrace]

/-- C6 counterexample: the claim says that on the successful-parse path no
suggestion ever carries risk level "unknown"; but the normalizer does
not validate the parsed object, so a backend reply that itself contains
a suggestion with risk "unknown" flows through the success path
unchanged (candidate extraction succeeds, so this is not the fallback). -/
theorem C6_counterexample :
    (extract_candidate c6content).isSome = true ∧
    parse_llm_response ⟨some c6content, none⟩ =
      Json.obj [("relaxation_suggestions".data,
        Json.arr [Json.obj [("risk_level".data, Json.str "unknown".data)]])] := by
  constructor <;> rfl

/-- C6 as amended: the fallback path emits exactly one suggestion, with
priority 1, the non-empty target "Unknown" and the sentinel risk level
"unknown"; the successful-parse path applies no validation and passes
the backend's `relaxation_suggestions` field through unchanged (only
`reasoning_trace` is touched), so any guarantee about risk levels there
holds only if the backend's reply satisfies it. -/
theorem C6_amended :
    (∀ content r, jGet (fallback_parse content r) "relaxation_suggestions".data =
      some (Json.arr [Json.obj [
        ("priority".data, Json.num 1),
        ("constraint_to_relax".data, Json.str "Unknown".data),
        ("relaxation_strategy".data, Json.str (content.take 500)),
        ("description".data, Json.str "Raw LLM response".data),
        ("expected_impact".data, Json.str "Unknown".data),
        ("risk_level".data, Json.str "unknown".data)]])) ∧
    (∀ (response : LLMReply) (js : List Char) (kvs : List (List Char × Json)),
      extract_candidate (response.content.getD []) = some js →
      parseJson js = some (Json.obj kvs) →
      jGet (parse_llm_response response) "relaxation_suggestions".data =
        getKey? kvs "relaxation_suggestions".data) := by
  constructor
  · intro content r
    rfl
  · intro response js kvs he hp
    unfold parse_llm_response
    simp only [he, hp]
    unfold attachReasoning
    cases hr : response.reasoning with
    | none => rfl
    | some s =>
      cases s with
      | nil => rfl
      | cons c t =>
        simp only [truthyChars, List.isEmpty_cons, Bool.not_false, if_true]
        show getKey? (setKey kvs rtKey (Json.str (c :: t)))
          "relaxation_suggestions".data = getKey? kvs "relaxation_suggestions".data
        exact getKey?_setKey_ne (by decide) _

/-- The success-path reply used by the C6 witness. -/
def c6witnessContent : List Char := [lbrace] ++ "\"a\":1".data ++ [rbrace]

theorem C6_amended_witness :
    jGet (fallback_parse [] none) "relaxation_suggestions".data =
      some (Json.arr [Json.obj [
        ("priority".data, Json.num 1),
        ("constraint_to_relax".data, Json.str "Unknown".data),
        ("relaxation_strategy".data, Json.str (List.take 500 [])),
        ("description".data, Json.str "Raw LLM response".data),
        ("expected_impact".data, Json.str "Unknown".data),
        ("risk_level".data, Json.str "unknown".data)]]) ∧
    jGet (parse_llm_response ⟨some c6witnessContent, none⟩)
        "relaxation_suggestions".data =
      getKey? [("a".data, Json.num 1)] "relaxation_suggestions".data :=
  ⟨C6_amended.1 [] none,
   C6_amended.2 ⟨some c6witnessContent, none⟩ c6witnessContent
     [("a".data, Json.num 1)] rfl rfl⟩

/-- C7: wrapping a valid JSON object reply in brace-free prose does not
change the normalizer's result — the span from the first `{` to the
last `}` is extracted and parsed, the surrounding prose ignored. -/
theorem C7_prose_wrapping (kvs : List (List Char × Json)) (r : Option (List Char))
    (pre post : List Char)
    (hpre1 : lbrace ∉ pre) (hpre2 : rbrace ∉ pre)
    (hpost1 : lbrace ∉ post) (hpost2 : rbrace ∉ post) :
    extract_candidate (pre ++ Json.render (Json.obj kvs) ++ post) =
      some (Json.render (Json.obj kvs)) ∧
    parse_llm_response ⟨some (pre ++ Json.render (Json.obj kvs) ++ post), r⟩ =
      parse_llm_response ⟨some (Json.render (Json.obj kvs)), r⟩ := by
  constructor
  · have hshape : Json.render (Json.obj kvs) =
        lbrace :: renderMembers kvs ++ [rbrace] := by
      simp [Json.render]
    rw [hshape]
    exact extract_candidate_wrapped hpre1 hpost2
  · rw [parse_llm_response_wrapped pre post kvs r hpre1 hpost2]
    have h := parse_llm_response_wrapped [] [] kvs r (by simp) (by simp)
    simp only [List.nil_append, List.append_nil] at h
    rw [h]

theorem C7_prose_wrapping_witness :
    lbrace ∉ "Here is my answer:\n".data ∧ rbrace ∉ "Here is my answer:\n".data ∧
    lbrace ∉ "\nHope that helps!".data ∧ rbrace ∉ "\nHope that helps!".data ∧
    parse_llm_response ⟨some ("Here is my answer:\n".data ++
        Json.render (Json.obj [("a".data, Json.num 1)]) ++
        "\nHope that helps!".data), none⟩ =
      parse_llm_response ⟨some (Json.render (Json.obj [("a".data, Json.num 1)])),
        none⟩ :=
  ⟨by decide, by decide, by decide, by decide,
   (C7_prose_wrapping [("a".data, Json.num 1)] none
     "Here is my answer:\n".data "\nHope that helps!".data
     (by decide) (by decide) (by decide) (by decide)).2⟩

/-- C8: the critical-days table of the compiled prompt holds at most 10
entries — the first 10 critical days in the supplied order (pure
truncation, no re-sorting): entry `i` of the truncated table is entry
`i` of the critical-day list when `i < 10`, and absent otherwise. -/
theorem C8_critical_days_truncation (daily_diagnostics : List DayDiagnostic)
    (i : Nat) :
    ((criticalDays daily_diagnostics).take 10).length ≤ 10 ∧
    section_most_critical_days daily_diagnostics =
      format_critical_days ((criticalDays daily_diagnostics).take 10) ∧
    ((criticalDays daily_diagnostics).take 10).get? i =
      (if i < 10 then (criticalDays daily_diagnostics).get? i else none) := by
  refine ⟨?_, rfl, ?_⟩
  · simpa using List.length_take_le 10 (criticalDays daily_diagnostics)
  · by_cases hi : i < 10
    · rw [if_pos hi]
      exact List.get?_take hi
    · rw [if_neg hi]
      apply List.get?_eq_none.mpr
      have := List.length_take_le 10 (criticalDays daily_diagnostics)
      omega

/-- C9: with no positive capacity gap the critical-days section renders
exactly "None", and an empty or absent violations list renders exactly
"None detected". -/
theorem C9_empty_sections :
    (∀ daily_diagnostics : List DayDiagnostic,
      (∀ d ∈ daily_diagnostics, d.capacity_gap ≤ 0) →
      section_most_critical_days daily_diagnostics = "None") ∧
    format_violations none = "None detected" ∧
    format_violations (some []) = "None detected" := by
  refine ⟨?_, rfl, rfl⟩
  intro dd h
  have hcd : criticalDays dd = [] := by
    rw [criticalDays, List.filter_eq_nil]
    intro d hd
    simpa using not_lt.mpr (h d hd)
  rw [section_most_critical_days, hcd]
  rfl

theorem C9_empty_sections_witness :
    (∀ d ∈ [(⟨1, "Mon", 3, 3, 3, 0, false⟩ : DayDiagnostic)],
      d.capacity_gap ≤ 0) ∧
    section_most_critical_days [(⟨1, "Mon", 3, 3, 3, 0, false⟩ : DayDiagnostic)] =
      "None" :=
  ⟨by decide, C9_empty_sections.1 [⟨1, "Mon", 3, 3, 3, 0, false⟩] (by decide)⟩

/-- C10: when the reply dict reaching `quick_advice` lacks a content
entry, it returns the literal "No advice available"; when content is
present it is returned verbatim (even when empty), with no call into
the Response Normalizer. -/
theorem C10_quick_advice (response : LLMReply) :
    (response.content = none →
      quick_advice response = "No advice available".data) ∧
    (∀ s, response.content = some s → quick_advice response = s) := by
  constructor
  · intro h
    rw [quick_advice, h]
    rfl
  · intro s h
    rw [quick_advice, h]
    rfl

theorem C10_quick_advice_witness :
    quick_advice ⟨none, none⟩ = "No advice available".data ∧
    quick_advice ⟨some "hi".data, none⟩ = "hi".data :=
  ⟨(C10_quick_advice ⟨none, none⟩).1 rfl,
   (C10_quick_advice ⟨some "hi".data, none⟩).2 "hi".data rfl⟩

end NunoOrch
